import Mathlib

/-!
Verification of the `streamutils` pipeline composition engine
(`src/streamutils/__init__.py`).

The development shallowly embeds the parts of the library that the
specification's claims are about:

* the `Connector` / `Terminator` composition protocol
  (`Connector.__call__`, `__or__`, `__ror__`, `__iter__`, `close`,
  `Terminator.__ror__`), lines 58-155 of the source;
* the helper `_wrapInIterable` (lines 356-382);
* the selection helper `_ntodict` (lines 289-326) together with the
  `split` (lines 1343-1362) and `words` (lines 1299-1341) stages;
* the `smap` stage (lines 1460-1475).

Python objects are modelled as explicit first-order data; mutation of a
`functools.partial`'s keyword dictionary is modelled by functional record
update, and heap aliasing (several chains sharing nodes) is modelled by an
explicit store of nodes addressed by index.
-/

namespace Streamutils

/-- Python exceptions raised by the composition layer or by stage helpers.
`notImplementedError` is what `Connector.__or__` raises on an incompatible
right-hand operand (the specification's taxonomy calls it
"InvalidComposition"); `valueError` is raised by `_ntodict`; `typeError`
models Python `TypeError` (non-iterable producer results). -/
inductive PyErr where
  | typeError (msg : String)
  | valueError (msg : String)
  | notImplementedError (msg : String)
  deriving DecidableEq

/-- Python values that flow through the claims: `None`, integers, strings,
(flat) lists of values and opaque function objects.  Only the shapes the
claims exercise are represented. -/
inductive PyVal where
  | none
  | int (n : Int)
  | str (s : String)
  | listv (xs : List PyVal)
  | func (name : String)

/-- `isinstance(item, Iterable)` for the modelled values: lists and strings
are `collections.Iterable`; `None`, integers and function objects are not. -/
def isIterable : PyVal → Bool
  | .listv _ => true
  | .str _ => true
  | _ => false

/-- `_wrapInIterable` (source lines 356-382):
`None` is passed through; integers and strings are wrapped in a one-element
list; any other iterable is returned unchanged; anything else is wrapped in
a one-element list. -/
def wrapInIterable : PyVal → PyVal
  | .none => .none
  | .int n => .listv [.int n]
  | .str s => .listv [.str s]
  | .listv xs => .listv xs
  | v => .listv [v]

/-! ## The composition protocol (`Connector` / `Terminator`)

A `PNode` is the state of a `Connector` produced by calling a registered
stage with arguments (`Connector.__call__`, lines 66-79): the stage
descriptor it wraps (`funcId`), the bound arguments of the
`functools.partial`, the binding of the reserved `tokens` keyword, and
whether the bound keyword arguments carry `end=True`.  The node's identity
(`nodeId`) stands for the Python object identity of the `Connector`. -/

/-- The binding state of the `tokens` keyword inside the partial's
`keywords` dictionary. -/
inductive TokensBinding where
  | unbound
  | boundNode (id : Nat)
  | boundValue (v : PyVal)

/-- A `Connector` instance produced by `Connector.__call__`. -/
structure PNode where
  nodeId : Nat
  funcId : Nat
  args : List PyVal
  tokens : TokensBinding
  endFlag : Bool

/-- A `Terminator` instance produced by `Terminator.__call__`. -/
structure TermStage where
  funcId : Nat
  args : List PyVal

/-- `Connector.__call__` (lines 66-79): returns a *new* `Connector`
wrapping `partial(self.func, *args, **kwargs)`.  The wrapped function is
not invoked; `tokens` is not yet bound.  `fresh` is the identity of the
newly allocated object. -/
def connCall (funcId : Nat) (args : List PyVal) (endFlag : Bool) (fresh : Nat) : PNode :=
  { nodeId := fresh, funcId := funcId, args := args, tokens := .unbound, endFlag := endFlag }

/-- The raw result of invoking a wrapped producer function: a Python
iterator (generator, `map` object, ...), a non-iterator iterable (list,
...), or something that is not iterable at all. -/
inductive RawResult where
  | iterator (xs : List PyVal)
  | iterable (xs : List PyVal)
  | notIter (v : PyVal)

/-- `Connector.__iter__` (lines 81-92), composed with a full drain of the
resulting iterator: an `Iterator` result is used directly, an `Iterable`
result is turned into its iterator, anything else raises `TypeError`. -/
def connIter : RawResult → Except PyErr (List PyVal)
  | .iterator xs => .ok xs
  | .iterable xs => .ok xs
  | .notIter _ =>
      .error (.typeError
        "functions wrapped in Connectors must be either generators or return Iterators or Iterables")

/-- The Python builtin `list(...)` applied to a producer's raw result, as
used by the eager-drain branch of `Connector.__ror__` (line 109). -/
def pyList : RawResult → Except PyErr (List PyVal)
  | .iterator xs => .ok xs
  | .iterable xs => .ok xs
  | .notIter _ => .error (.typeError "argument is not iterable")

/-- The left-hand operand of `__ror__`: either an upstream `Connector`
(identified by its object identity) or a plain Python value. -/
inductive RorLhs where
  | node (a : PNode)
  | value (v : PyVal)

/-- Line 103 of `Connector.__ror__`:
`other = other if isinstance(other, Iterable) else _wrapInIterable(other)`,
followed by `self.func.keywords[self.tokenskw] = other`.  A `Connector`
left-hand side is itself `Iterable`, so it is bound as the node object
itself (ownership transfer, preserving laziness); a plain value is bound
directly when iterable and is otherwise passed through `_wrapInIterable`. -/
def rorNormalizeOther : RorLhs → TokensBinding
  | .node a => .boundNode a.nodeId
  | .value v => .boundValue (if isIterable v then v else wrapInIterable v)

/-- The visible outcome of a chain-operator application. -/
inductive PipeOut where
  | chained (b : PNode)
  | drained (xs : List PyVal)
  | terminated (v : PyVal)

/-- A stage-semantics table: invoking the wrapped producer function
`funcId` with bound arguments `args` and the given `tokens` binding yields
this raw result.  (The individual operand functions are external
collaborators; the composition engine treats them as opaque.) -/
def StageSem : Type :=
  Nat → List PyVal → TokensBinding → RawResult

/-- Terminal-stage semantics: a terminator function consumes its `tokens`
binding synchronously and returns a plain value or raises. -/
def TermSem : Type :=
  Nat → List PyVal → TokensBinding → Except PyErr PyVal

/-- Drain of a lazy chain: `list(iter(node))`, i.e. `Connector.__iter__`
invoking the wrapped function with its bound arguments and normalizing the
result (lines 81-92). -/
def drainNode (sem : StageSem) (n : PNode) : Except PyErr (List PyVal) :=
  connIter (sem n.funcId n.args n.tokens)

/-- `Connector.__ror__` (lines 100-112).  The left operand is normalized
and written into the partial's `keywords` under the `tokens` key; `end` is
popped from the keyword arguments.  With `end=True` the wrapped function is
invoked at once and its result drained by `list(...)`; otherwise the node
itself is returned with `tokens` bound and no function invoked.  The second
component records which wrapped functions were invoked. -/
def connRor (sem : StageSem) (lhs : RorLhs) (b : PNode) :
    Except PyErr PipeOut × List Nat :=
  let tk := rorNormalizeOther lhs
  if b.endFlag then
    ((pyList (sem b.funcId b.args tk)).map PipeOut.drained, [b.funcId])
  else
    (.ok (.chained { b with tokens := tk, endFlag := false }), [])

/-- The right-hand operand of `Connector.__or__` (lines 94-98). -/
inductive OrRhs where
  | conn (b : PNode)
  | term (t : TermStage)
  | other (typeName : String)

/-- `Connector.__or__` (lines 94-98) together with the `__ror__` it
dispatches to: a `Connector` right-hand side goes through
`Connector.__ror__`; a `Terminator` right-hand side goes through
`Terminator.__ror__` (lines 140-147), which invokes the terminal function
with `tokens` bound to the upstream node; anything else raises
`NotImplementedError` naming the offending type, and no wrapped function is
invoked. -/
def connOr (sem : StageSem) (tsem : TermSem) (a : PNode) :
    OrRhs → Except PyErr PipeOut × List Nat
  | .conn b => connRor sem (.node a) b
  | .term t =>
      ((tsem t.funcId t.args (.boundNode a.nodeId)).map PipeOut.terminated, [t.funcId])
  | .other ty =>
      (.error (.notImplementedError ("Cannot compose a Connector with a " ++ ty)), [])

/-! ## The teardown protocol (`Connector.close`, `Terminator.__ror__`)

`Connector.close` (lines 124-133) is modelled over the linked chain of
`Connector` nodes reachable through the `tokens` bindings, listed tail
first (the node whose `close` is called is the head, the root producer is
the last element).  Each node's relevant state is whether an iterator has
been cached by `__iter__` (`self.it is not None`), whether that iterator
has a `close` attribute (generators do, `map` objects do not), whether it
has already been closed/finalized, and whether its `close()` raises. -/

/-- The teardown-relevant state of one `Connector` in a chain. -/
structure NodeState where
  hasIt : Bool
  closable : Bool
  closed : Bool
  closeErr : Option PyErr
  closeCalls : Nat
  deriving DecidableEq

/-- `self.it.close()` on a cached generator: closing an already finalized
generator is a no-op that raises nothing (Python generator semantics);
otherwise the generator is finalized, the effectful close is counted, and
`closeErr` (an exception escaping the generator's cleanup) propagates. -/
def closeIter (n : NodeState) : NodeState × Option PyErr :=
  if n.closed then (n, none)
  else ({ n with closed := true, closeCalls := n.closeCalls + 1 }, n.closeErr)

/-- `Connector.close` (lines 124-133), unfolded along the `tokens` chain
(tail node first).  Only when the node has a cached iterator that supports
closing does it close that iterator and then — in a `finally` block, so
also when `self.it.close()` raised — recursively close the upstream node
bound as its `tokens` argument.  A node without a cached closable iterator
does nothing at all: the recursion to its ancestors never runs.  The second
component is the exception escaping the whole `close()` call, if any (an
exception raised inside the `finally` block replaces the one from the `try`
block). -/
def closeChain : List NodeState → List NodeState × Option PyErr
  | [] => ([], none)
  | n :: rest =>
    if n.hasIt && n.closable then
      ((closeIter n).1 :: (closeChain rest).1, (closeChain rest).2 <|> (closeIter n).2)
    else (n :: rest, none)

/-- `Terminator.__ror__` (lines 140-147): `try: return self.func(...)`
`finally: other.close()`.  `result` is the outcome of the terminal function
(normal value or raised exception); the upstream node's `close()` runs on
both exit paths, and an exception escaping the `finally` block replaces the
in-flight result. -/
def terminatorRor {α : Type} (chain : List NodeState) (result : Except PyErr α) :
    List NodeState × Except PyErr α :=
  ((closeChain chain).1,
    match (closeChain chain).2 with
    | some e => .error e
    | none => result)

/-! ## A store of nodes: object identity and freshness

Claim C7 is about aliasing: two chains built by calling the same
registered stage must not share mutable state.  The mechanism in the
source is that `Connector.__call__` (lines 66-79) allocates a *new*
`Connector` around a fresh `functools.partial` on every call, and
`Connector.__ror__` (lines 100-112) mutates only the partial owned by the
right-hand node.  To state this, nodes live in an explicit store (the
Python heap) addressed by index; `tokens` bindings are store addresses. -/

/-- A heap-allocated pipeline node: the immutable stage descriptor it was
built from, its own bound arguments, and the address of the upstream node
bound as its `tokens` argument (if any). -/
structure HNode where
  funcId : Nat
  args : List PyVal
  tokens : Option Nat

/-- `Connector.__call__` at store level: append a fresh node (new partial,
`tokens` unbound) and return its address. -/
def callStage (s : List HNode) (funcId : Nat) (args : List PyVal) :
    List HNode × Nat :=
  (s ++ [{ funcId := funcId, args := args, tokens := none }], s.length)

/-- `Connector.__ror__` at store level (no `end`): write the upstream
address `u` into the `keywords` of the node at address `i`; only that node
is mutated. -/
def connectIds (s : List HNode) (u i : Nat) : List HNode :=
  match s[i]? with
  | some n => s.set i { n with tokens := some u }
  | none => s

/-- Build the rest of a chain below an existing upstream node `u`: for each
argument list, call the stage (fresh node) and connect it below the
previous node, returning the final store and the tail node's address. -/
def buildChainFrom (s : List HNode) (funcId : Nat) (u : Nat) :
    List (List PyVal) → List HNode × Nat
  | [] => (s, u)
  | args :: rest =>
      let s1 := (callStage s funcId args).1
      let i := (callStage s funcId args).2
      buildChainFrom (connectIds s1 u i) funcId i rest

/-- Build a whole chain from calls to one registered stage: the first
argument list makes the root node (its `tokens` stays unbound), the rest
are connected below it in order.  Returns the extended store and the tail
node's address. -/
def buildChain (s : List HNode) (funcId : Nat) :
    List (List PyVal) → List HNode × Nat
  | [] => (s, 0)
  | args :: rest =>
      let s1 := (callStage s funcId args).1
      let i := (callStage s funcId args).2
      buildChainFrom s1 funcId i rest

/-- Chain-result semantics over the store: the fuelled demand-pull
evaluation of the node at address `i`.  `sem funcId args tokensIn` is the
drained output of the wrapped producer given the drained output of its
upstream (`[]` for an absent `tokens` binding, matching a root stage that
supplies its own source). -/
def evalNode (sem : Nat → List PyVal → List PyVal → List PyVal)
    (s : List HNode) : Nat → Nat → List PyVal
  | 0, _ => []
  | fuel + 1, i =>
      match s[i]? with
      | none => []
      | some n =>
          sem n.funcId n.args
            (match n.tokens with
             | none => []
             | some j => evalNode sem s fuel j)

/-- Pure description of the nodes `buildChainFrom` appends when the store
already holds `base` nodes and the upstream is at address `u`: used to
relate a chain built on top of an existing store to the same chain built
alone. -/
def buildExt (funcId : Nat) (base u : Nat) :
    List (List PyVal) → List HNode × Nat
  | [] => ([], u)
  | args :: rest =>
      (⟨funcId, args, some u⟩ :: (buildExt funcId (base + 1) base rest).1,
        (buildExt funcId (base + 1) base rest).2)

/-- Re-addressing of a node when its store is shifted by `k` positions. -/
def shiftNode (k : Nat) (n : HNode) : HNode :=
  { n with tokens := n.tokens.map (· + k) }

/-! ## `_ntodict`, `split` and `words`

`_ntodict` (lines 289-326) selects the `n`-th item (1-based) from the
result of a `.split` / `.findall`; `split` (lines 1343-1362) and `words`
(lines 1299-1341) drive it once per input line.  The claims exercise the
default `names=None`, `inject={}`, `outsep=None` configuration, which is
what is embedded; Python's `int` argument is modelled by `Nat` (the claims
restrict to `n > 0`, and `n = 0` keeps its falsy whole-list meaning). -/

/-- The `n` argument of `_ntodict`: a single 1-based index or a list of
1-based indices. -/
inductive NSel where
  | num (n : Nat)
  | nums (ns : List Nat)

/-- What `_ntodict` passes down the pipeline (with `names=None`): a single
selected string or a list of strings. -/
inductive Picked where
  | one (s : String)
  | many (xs : List String)
  deriving DecidableEq

/-- Python `max` over a list of naturals (claims only reach it on
non-empty lists). -/
def pyMax (ns : List Nat) : Nat :=
  ns.foldr max 0

/-- `_ntodict` (lines 289-326) at `names=None`, `inject={}`: a positive
integer `n` picks `results[n-1]` and raises `ValueError` when the list has
fewer than `n` items; `n = 0` (falsy) returns the whole list; a non-empty
list of indices picks each `results[i-1]` after the same bounds check
against its maximum; an empty list returns the whole list.  The Python
message interpolates the list itself (`'Not enough items in list %s to
pick item %d'`); the list repr is omitted here, which no claim
observes. -/
def ntodict (results : List String) : NSel → Except PyErr Picked
  | .num n =>
      if 0 < n then
        if results.length < n then
          .error (.valueError ("Not enough items in list to pick item " ++ toString n))
        else .ok (.one (results.getD (n - 1) ""))
      else .ok (.many results)
  | .nums ns =>
      if ns ≠ [] ∧ results.length < pyMax ns then
        .error (.valueError ("Not enough items in list to pick item " ++ toString (pyMax ns)))
      else if ns ≠ [] then .ok (.many (ns.map fun i => results.getD (i - 1) ""))
      else .ok (.many results)

/-- Draining a generator of the shape `for line in tokens: yield f(line)`
where `f` may raise: tokens are processed in order and the first raised
exception aborts the stream. -/
def streamYield {α β : Type} (f : α → Except PyErr β) : List α → Except PyErr (List β)
  | [] => .ok []
  | a :: as =>
      match f a with
      | .error e => .error e
      | .ok b =>
          match streamYield f as with
          | .error e => .error e
          | .ok bs => .ok (b :: bs)

/-- The `split` stage (lines 1343-1362) at `outsep=None`, `names=None`,
`inject={}`, with an explicit (non-`None`) separator: each line is split
with `line.split(sep)` and passed through `_ntodict`. -/
def splitStage (n : NSel) (sep : String) (tokens : List String) :
    Except PyErr (List Picked) :=
  streamYield (fun line => ntodict (line.splitOn sep) n) tokens

/-- The `words` stage (lines 1299-1341) at `outsep=None`, `names=None`,
`inject=None`: each line is scanned with `re.findall(word, line)` and the
result passed through `_ntodict`.  The regex engine is an external
collaborator, so the findall step is a parameter. -/
def wordsStage (findall : String → List String) (n : NSel) (tokens : List String) :
    Except PyErr (List Picked) :=
  streamYield (fun line => ntodict (findall line) n) tokens

/-! ## `smap` -/

/-- The `smap` stage (lines 1460-1475):
`map(reduce(lambda f, g: lambda x: f(g(x)), funcs), tokens)`, drained.
Python's `reduce` without an initial value raises `TypeError` on an empty
function tuple, modelled by `Option.none`. -/
def smap {α : Type} (funcs : List (α → α)) (tokens : List α) : Option (List α) :=
  match funcs with
  | [] => none
  | f :: fs => some (tokens.map (fs.foldl (fun f g => fun x => f (g x)) f))

/-- Right-to-left application as the claim words it: `smap(f1, ..., fk)`
should apply the rightmost function to the token first, i.e. compute
`f1(f2(...fk(t)...))`. -/
def composeRightToLeft {α : Type} : List (α → α) → α → α
  | [], x => x
  | f :: fs, x => f (composeRightToLeft fs x)

/-! ## Lemmas about the teardown protocol -/

theorem closeIter_fst_closed (n : NodeState) : ((closeIter n).1).closed = true := by
  unfold closeIter
  split
  · next h => exact h
  · rfl

theorem closeIter_of_closed (n : NodeState) (h : n.closed = true) :
    closeIter n = (n, none) := by
  unfold closeIter
  rw [if_pos h]

theorem closeIter_of_open (n : NodeState) (h : n.closed = false) :
    closeIter n = ({ n with closed := true, closeCalls := n.closeCalls + 1 }, n.closeErr) := by
  unfold closeIter
  rw [if_neg (by simp [h])]

theorem closeIter_fst_hasIt (n : NodeState) : ((closeIter n).1).hasIt = n.hasIt := by
  unfold closeIter
  split <;> rfl

theorem closeIter_fst_closable (n : NodeState) : ((closeIter n).1).closable = n.closable := by
  unfold closeIter
  split <;> rfl

theorem closeChain_all_closed (c : List NodeState)
    (h : ∀ n ∈ c, n.hasIt = true ∧ n.closable = true) :
    ∀ n ∈ (closeChain c).1, n.closed = true := by
  induction c with
  | nil => intro n hn; cases hn
  | cons n rest ih =>
      have hn := h n (List.mem_cons_self n rest)
      have hcond : (n.hasIt && n.closable) = true := by
        rw [hn.1, hn.2]; rfl
      intro m hm
      rw [closeChain, if_pos hcond] at hm
      rcases List.mem_cons.mp hm with hhead | htail
      · rw [hhead]; exact closeIter_fst_closed n
      · exact ih (fun x hx => h x (List.mem_cons_of_mem n hx)) m htail

theorem closeChain_err_none (c : List NodeState)
    (h : ∀ n ∈ c, n.closeErr = none) :
    (closeChain c).2 = none := by
  induction c with
  | nil => rfl
  | cons n rest ih =>
      rw [closeChain]
      split
      · have hrest : (closeChain rest).2 = none :=
          ih (fun x hx => h x (List.mem_cons_of_mem n hx))
        have hhead : (closeIter n).2 = none := by
          unfold closeIter
          split
          · rfl
          · exact h n (List.mem_cons_self n rest)
        simp [hrest, hhead]
      · rfl

/-- Claim C6: `close()` is idempotent teardown — running the close cascade
a second time over an already-closed chain changes nothing and raises no
exception.  (`Connector.close`, lines 124-133: the second `self.it.close()`
hits an already-finalized generator, which is a no-op in Python.) -/
theorem close_idempotent (c : List NodeState) :
    closeChain (closeChain c).1 = ((closeChain c).1, none) := by
  induction c with
  | nil => rfl
  | cons n rest ih =>
      by_cases hcond : (n.hasIt && n.closable) = true
      · rw [closeChain, if_pos hcond]
        have hcond2 : ((closeIter n).1.hasIt && (closeIter n).1.closable) = true := by
          rw [closeIter_fst_hasIt, closeIter_fst_closable]; exact hcond
        rw [closeChain, if_pos hcond2]
        rw [closeIter_of_closed _ (closeIter_fst_closed n)]
        rw [show (closeChain (closeChain rest).1) = ((closeChain rest).1, none) from ih]
        simp
      · rw [closeChain, if_neg hcond, closeChain, if_neg hcond]

/-- Claim C2 (amended): when every node along the chain has a cached
iterator that supports `close`, closing the downstream node closes every
ancestor transitively, each underlying iterator exactly once, and nothing
else in the node state changes — even when closing intermediate iterators
raises exceptions (`closeErr` is unconstrained), thanks to the
`try/finally` in `Connector.close` (lines 127-133). -/
theorem close_cascades_when_closable (c : List NodeState)
    (h : ∀ n ∈ c, n.hasIt = true ∧ n.closable = true ∧ n.closed = false) :
    (closeChain c).1
      = c.map (fun n => { n with closed := true, closeCalls := n.closeCalls + 1 }) := by
  induction c with
  | nil => rfl
  | cons n rest ih =>
      have hn := h n (List.mem_cons_self n rest)
      have hcond : (n.hasIt && n.closable) = true := by
        rw [hn.1, hn.2.1]; rfl
      rw [closeChain, if_pos hcond, closeIter_of_open n hn.2.2, List.map_cons]
      exact congrArg _ (ih (fun x hx => h x (List.mem_cons_of_mem n hx)))

theorem close_cascades_when_closable_witness :
    (∀ n ∈ [(⟨true, true, false, none, 0⟩ : NodeState),
            ⟨true, true, false, some (.valueError "broken pipe"), 0⟩,
            ⟨true, true, false, none, 0⟩],
        n.hasIt = true ∧ n.closable = true ∧ n.closed = false)
    ∧ (closeChain [(⟨true, true, false, none, 0⟩ : NodeState),
            ⟨true, true, false, some (.valueError "broken pipe"), 0⟩,
            ⟨true, true, false, none, 0⟩]).1
      = [(⟨true, true, false, none, 0⟩ : NodeState),
            ⟨true, true, false, some (.valueError "broken pipe"), 0⟩,
            ⟨true, true, false, none, 0⟩].map
          (fun n => { n with closed := true, closeCalls := n.closeCalls + 1 }) :=
  ⟨by decide, close_cascades_when_closable _ (by decide)⟩

/-- Claim C2 counterexample: in a three-node chain whose middle node's
cached iterator lacks `close` (as when a stage returns a `map` object, e.g.
`smap` or `strip`), calling `close()` on the tail closes the tail's own
iterator but the root's open iterator is never closed: the recursion in
`Connector.close` lives inside `if self.it and hasattr(self.it, 'close')`,
so a non-closable link halts the cascade.  Concretely this is
`read(fname) | smap(f) | head(2)` followed by `close()` on the tail. -/
theorem close_transitive_cex :
    ((closeChain [(⟨true, true, false, none, 0⟩ : NodeState),
        ⟨true, false, false, none, 0⟩,
        ⟨true, true, false, none, 0⟩]).1.getD 0 ⟨false, false, false, none, 0⟩).closed = true
    ∧ ((closeChain [(⟨true, true, false, none, 0⟩ : NodeState),
        ⟨true, false, false, none, 0⟩,
        ⟨true, true, false, none, 0⟩]).1.getD 2 ⟨false, false, false, none, 0⟩).closed = false := by
  decide

/-- Claim C1 (amended): `Terminator.__ror__` (lines 140-147) invokes the
upstream node's `close()` in a `finally` block on both exit paths, and —
when every stage along the chain has a cached iterator supporting `close`
and no cleanup raises — every stage's iterator reports closed afterward
while the terminal function's outcome (normal value or raised exception)
crosses the boundary unmodified. -/
theorem terminator_releases_upstream {α : Type} (c : List NodeState)
    (r : Except PyErr α)
    (h : ∀ n ∈ c, n.hasIt = true ∧ n.closable = true ∧ n.closeErr = none) :
    (terminatorRor c r).1 = (closeChain c).1
    ∧ (∀ n ∈ (terminatorRor c r).1, n.closed = true)
    ∧ (terminatorRor c r).2 = r := by
  refine ⟨rfl, ?_, ?_⟩
  · intro n hn
    exact closeChain_all_closed c (fun x hx => ⟨(h x hx).1, (h x hx).2.1⟩) n hn
  · show (match (closeChain c).2 with
      | some e => Except.error e
      | none => r) = r
    rw [closeChain_err_none c (fun x hx => (h x hx).2.2)]

theorem terminator_releases_upstream_witness :
    (∀ n ∈ [(⟨true, true, false, none, 0⟩ : NodeState), ⟨true, true, false, none, 0⟩],
        n.hasIt = true ∧ n.closable = true ∧ n.closeErr = none)
    ∧ ((terminatorRor [(⟨true, true, false, none, 0⟩ : NodeState),
          ⟨true, true, false, none, 0⟩]
          (Except.error (PyErr.valueError "no such file") : Except PyErr Nat)).1
        = (closeChain [(⟨true, true, false, none, 0⟩ : NodeState),
          ⟨true, true, false, none, 0⟩]).1
      ∧ (∀ n ∈ (terminatorRor [(⟨true, true, false, none, 0⟩ : NodeState),
          ⟨true, true, false, none, 0⟩]
          (Except.error (PyErr.valueError "no such file") : Except PyErr Nat)).1,
          n.closed = true)
      ∧ (terminatorRor [(⟨true, true, false, none, 0⟩ : NodeState),
          ⟨true, true, false, none, 0⟩]
          (Except.error (PyErr.valueError "no such file") : Except PyErr Nat)).2
        = (Except.error (PyErr.valueError "no such file") : Except PyErr Nat)) :=
  ⟨by decide, terminator_releases_upstream _ _ (by decide)⟩

/-- Claim C1 counterexample: connect `read(fname) | smap(f)` to the
terminator `first()`.  The terminal returns normally and the `finally`
block does call the upstream node's `close()`, but the `smap` node's
cached iterator is a `map` object without `close`, so `Connector.close`
does nothing and the root `read` generator — a resource-holding iterator
opened during the terminal's consumption — does not report closed after
the terminator returns.  The chain is listed tail first: index 1 is the
root. -/
theorem terminator_close_cascade_halts_cex :
    ((terminatorRor [(⟨true, false, false, none, 0⟩ : NodeState),
        ⟨true, true, false, none, 0⟩] (Except.ok (0 : Nat))).1.getD 1
        ⟨false, false, false, none, 0⟩).closed = false := by
  decide

/-! ## Composition operator claims -/

/-- Claim C4: calling two registered producer stages and connecting the
resulting nodes with the chain operator invokes neither wrapped function
(the invocation trace is empty, so no I/O is performed), and merely binds
the downstream node's `tokens` argument to the upstream *node itself*
(`TokensBinding.boundNode`, not a materialized `boundValue` sequence).
`Connector.__call__` only builds a `functools.partial` (lines 66-79) and
`Connector.__ror__` without `end=True` only writes that partial's
`keywords` (lines 100-112). -/
theorem connect_is_lazy (sem : StageSem) (tsem : TermSem)
    (fA fB : Nat) (argsA argsB : List PyVal) (idA idB : Nat) :
    connOr sem tsem (connCall fA argsA false idA) (.conn (connCall fB argsB false idB))
      = (.ok (.chained
          { nodeId := idB, funcId := fB, args := argsB,
            tokens := .boundNode idA, endFlag := false }), []) :=
  rfl

/-- Claim C5: composing a producer node with a right-hand object that is
neither a `Connector` nor a `Terminator` (e.g. a plain integer) raises the
invalid-composition error (`NotImplementedError` in the source, line 98)
whose message names the offending type, and no wrapped stage function is
invoked (empty invocation trace). -/
theorem invalid_composition_raises (sem : StageSem) (tsem : TermSem)
    (a : PNode) (ty : String) :
    connOr sem tsem a (.other ty)
      = (.error (.notImplementedError ("Cannot compose a Connector with a " ++ ty)), []) :=
  rfl

/-- Claim C8: the left-operand normalization of `Connector.__ror__`
(line 103): a plain iterable such as a list is bound directly as the
`tokens` source; a non-iterable scalar such as an integer is first wrapped
by `_wrapInIterable` into the one-element stream `[x]`; and `None` is
passed through as `None`. -/
theorem ror_wraps_plain_values (sem : StageSem) (b : PNode)
    (xs : List PyVal) (k : Int) :
    connRor sem (.value (.listv xs)) { b with endFlag := false }
      = (.ok (.chained { b with tokens := .boundValue (.listv xs), endFlag := false }), [])
    ∧ connRor sem (.value (.int k)) { b with endFlag := false }
      = (.ok (.chained { b with tokens := .boundValue (.listv [.int k]), endFlag := false }), [])
    ∧ connRor sem (.value .none) { b with endFlag := false }
      = (.ok (.chained { b with tokens := .boundValue .none, endFlag := false }), []) :=
  ⟨rfl, rfl, rfl⟩

/-- Claim C3: eager-drain equivalence.  Connecting an upstream node to a
stage invoked with `end=True` (the `list(self.func())` branch of
`Connector.__ror__`, lines 108-110) returns exactly the ordered sequence
obtained by fully iterating the identical chain built without `end=True`
(`list(iter(chain))`, i.e. `Connector.__iter__`, lines 81-92), whenever
the wrapped producer honours its contract of returning an iterator or an
iterable. -/
theorem eager_drain_equivalence (sem : StageSem) (a b c : PNode)
    (h1 : (connRor sem (.node a) { b with endFlag := false }).1 = .ok (.chained c))
    (h2 : ∀ v, sem b.funcId b.args (.boundNode a.nodeId) ≠ .notIter v) :
    (connRor sem (.node a) { b with endFlag := true }).1
      = (drainNode sem c).map (fun xs => PipeOut.drained xs) := by
  have hc : c = { b with tokens := .boundNode a.nodeId, endFlag := false } := by
    have := h1
    unfold connRor at this
    simp only [if_neg (by simp : ¬({ b with endFlag := false } : PNode).endFlag = true)] at this
    cases this
    rfl
  subst hc
  show (pyList (sem b.funcId b.args (.boundNode a.nodeId))).map PipeOut.drained
      = (connIter (sem b.funcId b.args (.boundNode a.nodeId))).map PipeOut.drained
  cases hraw : sem b.funcId b.args (.boundNode a.nodeId) with
  | iterator xs => rfl
  | iterable xs => rfl
  | notIter v => exact absurd hraw (h2 v)

theorem eager_drain_equivalence_witness :
    ((connRor (fun _ _ _ => .iterator [.int 9]) (.node ⟨0, 10, [], .unbound, false⟩)
        { (⟨1, 11, [.int 5], .unbound, false⟩ : PNode) with endFlag := false }).1
      = .ok (.chained ⟨1, 11, [.int 5], .boundNode 0, false⟩))
    ∧ (connRor (fun _ _ _ => .iterator [.int 9]) (.node ⟨0, 10, [], .unbound, false⟩)
        { (⟨1, 11, [.int 5], .unbound, false⟩ : PNode) with endFlag := true }).1
      = (drainNode (fun _ _ _ => .iterator [.int 9])
          ⟨1, 11, [.int 5], .boundNode 0, false⟩).map (fun xs => PipeOut.drained xs) :=
  ⟨rfl,
    eager_drain_equivalence (fun _ _ _ => .iterator [.int 9])
      ⟨0, 10, [], .unbound, false⟩ ⟨1, 11, [.int 5], .unbound, false⟩
      ⟨1, 11, [.int 5], .boundNode 0, false⟩ rfl
      (fun v h => RawResult.noConfusion h)⟩

/-! ## `split` / `words` claims -/

theorem streamYield_singleton {α β : Type} (f : α → Except PyErr β) (a : α) :
    streamYield f [a] = (f a).map (fun b => [b]) := by
  cases h : f a <;> simp [streamYield, h, Except.map]

/-- Claim C9: for `n > 0` and an explicit separator, the `split(n=n,
sep=sep)` stage yields the `n`-th piece (1-based) of `line.split(sep)`
when the line splits into at least `n` pieces, and raises `ValueError`
when it splits into fewer; `words(n=n)` shows the same 1-based selection
and `ValueError` behaviour over the pieces found by its `re.findall`
scan. -/
theorem split_words_one_based (n : Nat) (sep line : String)
    (findall : String → List String)
    (hn : 0 < n) (hsep : sep ≠ "") :
    ((n ≤ (line.splitOn sep).length →
        splitStage (.num n) sep [line]
          = .ok [.one ((line.splitOn sep).getD (n - 1) "")])
      ∧ ((line.splitOn sep).length < n →
        ∃ m, splitStage (.num n) sep [line] = .error (.valueError m)))
    ∧ ((n ≤ (findall line).length →
        wordsStage findall (.num n) [line]
          = .ok [.one ((findall line).getD (n - 1) "")])
      ∧ ((findall line).length < n →
        ∃ m, wordsStage findall (.num n) [line] = .error (.valueError m))) := by
  refine ⟨⟨?_, ?_⟩, ⟨?_, ?_⟩⟩
  · intro hle
    rw [splitStage, streamYield_singleton]
    rw [show ntodict (line.splitOn sep) (.num n)
        = .ok (.one ((line.splitOn sep).getD (n - 1) "")) from by
      simp only [ntodict]
      rw [if_pos hn, if_neg (by omega)]]
    rfl
  · intro hlt
    refine ⟨"Not enough items in list to pick item " ++ toString n, ?_⟩
    rw [splitStage, streamYield_singleton]
    rw [show ntodict (line.splitOn sep) (.num n)
        = .error (.valueError ("Not enough items in list to pick item " ++ toString n)) from by
      simp only [ntodict]
      rw [if_pos hn, if_pos hlt]]
    rfl
  · intro hle
    rw [wordsStage, streamYield_singleton]
    rw [show ntodict (findall line) (.num n)
        = .ok (.one ((findall line).getD (n - 1) "")) from by
      simp only [ntodict]
      rw [if_pos hn, if_neg (by omega)]]
    rfl
  · intro hlt
    refine ⟨"Not enough items in list to pick item " ++ toString n, ?_⟩
    rw [wordsStage, streamYield_singleton]
    rw [show ntodict (findall line) (.num n)
        = .error (.valueError ("Not enough items in list to pick item " ++ toString n)) from by
      simp only [ntodict]
      rw [if_pos hn, if_pos hlt]]
    rfl

theorem split_words_one_based_witness :
    (0 < 2) ∧ ("," ≠ "")
    ∧ (((2 ≤ ("a,b,c".splitOn ",").length →
          splitStage (.num 2) "," ["a,b,c"]
            = .ok [.one (("a,b,c".splitOn ",").getD (2 - 1) "")])
        ∧ (("a,b,c".splitOn ",").length < 2 →
          ∃ m, splitStage (.num 2) "," ["a,b,c"] = .error (.valueError m)))
      ∧ ((2 ≤ ((fun l : String => l.splitOn " ") "a,b,c").length →
          wordsStage (fun l : String => l.splitOn " ") (.num 2) ["a,b,c"]
            = .ok [.one (((fun l : String => l.splitOn " ") "a,b,c").getD (2 - 1) "")])
        ∧ (((fun l : String => l.splitOn " ") "a,b,c").length < 2 →
          ∃ m, wordsStage (fun l : String => l.splitOn " ") (.num 2) ["a,b,c"]
            = .error (.valueError m)))) :=
  ⟨by decide, by decide,
    split_words_one_based 2 "," "a,b,c" (fun l : String => l.splitOn " ") (by decide) (by decide)⟩

/-! ## `smap` claim -/

theorem foldl_comp_apply {α : Type} (fs : List (α → α)) (f : α → α) (x : α) :
    (fs.foldl (fun f g => fun x => f (g x)) f) x = f (composeRightToLeft fs x) := by
  induction fs generalizing f with
  | nil => rfl
  | cons g gs ih =>
      show (gs.foldl (fun f g => fun x => f (g x)) (fun x => f (g x))) x
        = f (g (composeRightToLeft gs x))
      rw [ih]

/-- Claim C10: `smap(f1, ..., fk, tokens=ts)` yields
`f1(f2(...fk(t)...))` for each token `t` in order: the supplied functions
are composed right-to-left by the `reduce(lambda f, g: lambda x: f(g(x)),
funcs)` of lines 1460-1475, the rightmost function being applied to the
token first. -/
theorem smap_composes_right_to_left {α : Type} (f : α → α) (fs : List (α → α))
    (tokens : List α) :
    smap (f :: fs) tokens = some (tokens.map (composeRightToLeft (f :: fs))) := by
  unfold smap
  refine congrArg some ?_
  refine List.map_congr_left ?_
  intro x _
  exact foldl_comp_apply fs f x

/-! ## Store lemmas and the non-interference claim -/

theorem set_concat {γ : Type} (s : List γ) (n m : γ) :
    (s ++ [n]).set s.length m = s ++ [m] := by
  induction s with
  | nil => rfl
  | cons a t ih => simpa using ih

theorem connectIds_concat (s : List HNode) (n : HNode) (u : Nat) :
    connectIds (s ++ [n]) u s.length = s ++ [{ n with tokens := some u }] := by
  unfold connectIds
  rw [List.getElem?_concat_length]
  show (s ++ [n]).set s.length { n with tokens := some u } = _
  rw [set_concat]

theorem buildChainFrom_eq (l : List (List PyVal)) :
    ∀ (s : List HNode) (f u : Nat),
    buildChainFrom s f u l
      = (s ++ (buildExt f s.length u l).1, (buildExt f s.length u l).2) := by
  induction l with
  | nil => intro s f u; simp [buildChainFrom, buildExt]
  | cons args rest ih =>
      intro s f u
      rw [buildChainFrom]
      show buildChainFrom (connectIds (s ++ [⟨f, args, none⟩]) u s.length) f s.length rest = _
      rw [connectIds_concat, ih]
      rw [buildExt]
      simp [List.append_assoc]

theorem buildExt_shift (l : List (List PyVal)) :
    ∀ (f base u k : Nat),
    buildExt f (base + k) (u + k) l
      = ((buildExt f base u l).1.map (shiftNode k), (buildExt f base u l).2 + k) := by
  induction l with
  | nil => intro f base u k; simp [buildExt]
  | cons args rest ih =>
      intro f base u k
      rw [buildExt]
      rw [show base + k + 1 = (base + 1) + k from by omega]
      rw [ih f (base + 1) base k]
      rw [buildExt]
      simp [shiftNode]

theorem buildExt_length (l : List (List PyVal)) :
    ∀ (f base u : Nat), (buildExt f base u l).1.length = l.length := by
  induction l with
  | nil => intro f base u; rfl
  | cons args rest ih =>
      intro f base u
      rw [buildExt]
      simp [ih]

theorem buildExt_ordered (l : List (List PyVal)) :
    ∀ (f base u : Nat), u < base →
    ∀ (idx : Nat) (n : HNode), (buildExt f base u l).1[idx]? = some n →
    ∀ t, n.tokens = some t → t < base + idx := by
  induction l with
  | nil => intro f base u _ idx n hget; simp [buildExt] at hget
  | cons args rest ih =>
      intro f base u hub idx n hget t htok
      rw [buildExt] at hget
      match idx with
      | 0 =>
          simp at hget
          rw [← hget] at htok
          simp at htok
          omega
      | idx + 1 =>
          simp at hget
          have := ih f (base + 1) base (by omega) idx n hget t htok
          omega

theorem buildExt_tail_lt (l : List (List PyVal)) :
    ∀ (f base u : Nat), u < base → (buildExt f base u l).2 < base + l.length := by
  induction l with
  | nil => intro f base u hub; simpa [buildExt] using hub
  | cons args rest ih =>
      intro f base u hub
      show (buildExt f (base + 1) base rest).2 < base + (args :: rest).length
      have h2 := ih f (base + 1) base (by omega)
      simp only [List.length_cons]
      omega

theorem evalNode_agree (sem : Nat → List PyVal → List PyVal → List PyVal)
    (s1 s2 : List HNode) (k : Nat)
    (hpre : ∀ j, j < k → s2[j]? = s1[j]?)
    (hord : ∀ j n t, j < k → s1[j]? = some n → n.tokens = some t → t < k) :
    ∀ (fuel i : Nat), i < k → evalNode sem s2 fuel i = evalNode sem s1 fuel i := by
  intro fuel
  induction fuel with
  | zero => intro i _; rfl
  | succ fuel ih =>
      intro i hik
      rw [evalNode, evalNode, hpre i hik]
      cases hget : s1[i]? with
      | none => rfl
      | some n =>
          dsimp only
          cases htok : n.tokens with
          | none => rfl
          | some j =>
              have hjk : j < k := hord i n j hik hget htok
              dsimp only
              rw [ih j hjk]

theorem evalNode_shift (sem : Nat → List PyVal → List PyVal → List PyVal)
    (s t : List HNode) :
    ∀ (fuel i : Nat),
    evalNode sem (s ++ t.map (shiftNode s.length)) fuel (i + s.length)
      = evalNode sem t fuel i := by
  intro fuel
  induction fuel with
  | zero => intro i; rfl
  | succ fuel ih =>
      intro i
      rw [evalNode, evalNode]
      rw [List.getElem?_append_right (by omega)]
      rw [show i + s.length - s.length = i from by omega]
      rw [List.getElem?_map]
      cases hget : t[i]? with
      | none => rfl
      | some n =>
          dsimp only [Option.map, shiftNode]
          cases htok : n.tokens with
          | none => rfl
          | some j =>
              dsimp only [Option.map]
              rw [ih j]

/-- Claim C7: two independent chains built by invoking the same registered
stage (`funcId`) with different arguments do not interfere.
`Connector.__call__` allocates a fresh node per invocation and
`Connector.__ror__` mutates only the right-hand node's own partial, so
building a second chain (i) leaves every node of the first chain untouched
in the store, (ii) leaves the first chain's drained result unchanged, and
(iii) gives the second chain exactly the result it would produce if built
alone in an empty store. -/
theorem independent_chains_no_interference
    (sem : Nat → List PyVal → List PyVal → List PyVal) (f : Nat)
    (a0 b0 : List PyVal) (aRest bRest : List (List PyVal)) (fuel : Nat) :
    (buildChain (buildChain [] f (a0 :: aRest)).1 f (b0 :: bRest)).1.take
        (buildChain [] f (a0 :: aRest)).1.length
      = (buildChain [] f (a0 :: aRest)).1
    ∧ evalNode sem (buildChain (buildChain [] f (a0 :: aRest)).1 f (b0 :: bRest)).1 fuel
        (buildChain [] f (a0 :: aRest)).2
      = evalNode sem (buildChain [] f (a0 :: aRest)).1 fuel
        (buildChain [] f (a0 :: aRest)).2
    ∧ evalNode sem (buildChain (buildChain [] f (a0 :: aRest)).1 f (b0 :: bRest)).1 fuel
        (buildChain (buildChain [] f (a0 :: aRest)).1 f (b0 :: bRest)).2
      = evalNode sem (buildChain [] f (b0 :: bRest)).1 fuel
        (buildChain [] f (b0 :: bRest)).2 := by
  have hA : buildChain [] f (a0 :: aRest)
      = ([(⟨f, a0, none⟩ : HNode)] ++ (buildExt f 1 0 aRest).1,
          (buildExt f 1 0 aRest).2) := by
    rw [buildChain]
    show buildChainFrom [⟨f, a0, none⟩] f 0 aRest = _
    rw [buildChainFrom_eq]
    rfl
  have hB0 : buildChain [] f (b0 :: bRest)
      = ([(⟨f, b0, none⟩ : HNode)] ++ (buildExt f 1 0 bRest).1,
          (buildExt f 1 0 bRest).2) := by
    rw [buildChain]
    show buildChainFrom [⟨f, b0, none⟩] f 0 bRest = _
    rw [buildChainFrom_eq]
    rfl
  set sA : List HNode := (buildChain [] f (a0 :: aRest)).1 with hsA
  set iA : Nat := (buildChain [] f (a0 :: aRest)).2 with hiA
  have hlenA : sA.length = 1 + aRest.length := by
    rw [hsA, hA]
    simp [buildExt_length]
    omega
  have hAB : buildChain sA f (b0 :: bRest)
      = (sA ++ ([(⟨f, b0, none⟩ : HNode)]
            ++ (buildExt f (sA.length + 1) sA.length bRest).1),
          (buildExt f (sA.length + 1) sA.length bRest).2) := by
    rw [buildChain]
    show buildChainFrom (sA ++ [⟨f, b0, none⟩]) f sA.length bRest = _
    rw [buildChainFrom_eq]
    simp [List.append_assoc]
  -- the appended part of the combined store is the standalone B store,
  -- re-addressed by the length of A's store
  have hshiftStore :
      ([(⟨f, b0, none⟩ : HNode)] ++ (buildExt f (sA.length + 1) sA.length bRest).1)
        = ([(⟨f, b0, none⟩ : HNode)] ++ (buildExt f 1 0 bRest).1).map
            (shiftNode sA.length) := by
    have := buildExt_shift bRest f 1 0 sA.length
    rw [show (1 : Nat) + sA.length = sA.length + 1 from by omega,
        show (0 : Nat) + sA.length = sA.length from by omega] at this
    simp [this, shiftNode]
  have hshiftTail :
      (buildExt f (sA.length + 1) sA.length bRest).2
        = (buildExt f 1 0 bRest).2 + sA.length := by
    have := buildExt_shift bRest f 1 0 sA.length
    rw [show (1 : Nat) + sA.length = sA.length + 1 from by omega,
        show (0 : Nat) + sA.length = sA.length from by omega] at this
    rw [this]
  -- ordering of the A store: every tokens pointer is below the length
  have hordA : ∀ j n t, j < sA.length → sA[j]? = some n →
      n.tokens = some t → t < sA.length := by
    intro j n t _ hget htok
    rw [hsA, hA] at hget
    match j with
    | 0 =>
        simp at hget
        rw [← hget] at htok
        simp at htok
    | j + 1 =>
        simp at hget
        have := buildExt_ordered aRest f 1 0 (by omega) j n hget t htok
        omega
  have hiAlt : iA < sA.length := by
    rw [hiA, hA, hlenA]
    have := buildExt_tail_lt aRest f 1 0 (by omega)
    simpa using by omega
  have hpre : ∀ j, j < sA.length →
      (buildChain sA f (b0 :: bRest)).1[j]? = sA[j]? := by
    intro j hj
    rw [hAB]
    exact List.getElem?_append_left hj
  refine ⟨?_, ?_, ?_⟩
  · rw [hAB]
    simpa using List.take_left sA _
  · exact evalNode_agree sem sA _ sA.length hpre hordA fuel iA hiAlt
  · rw [hAB, hB0]
    show evalNode sem (sA ++ _) fuel _ = _
    rw [hshiftStore, hshiftTail]
    exact evalNode_shift sem sA _ fuel (buildExt f 1 0 bRest).2

end Streamutils
